import Mathlib

/-!
Verification of the PYDNS-Scanner core pipeline (`dnsscanner_tui.py`) against
its natural-language specification.

The Python source is shallowly embedded: lines of the range-list file are
sequences of characters, IPv4 addresses are natural numbers below 2^32,
durations are rationals (seconds), and the nondeterminism of the
cryptographically random shuffles is captured by quantifying over
permutations of the deterministically enumerated lists.
-/

/-! ## Range-list parsing (`ipaddress.IPv4Network(line, strict=False)`) -/

/-- A line of the range-list file, as the sequence of its characters. -/
abbrev FileLine := List Char

/-- Python's `str.strip()`: drop leading and trailing whitespace. -/
def stripLine (l : FileLine) : FileLine :=
  ((l.dropWhile Char.isWhitespace).reverse.dropWhile Char.isWhitespace).reverse

/-- Python's `str.split(sep)` for a one-character separator: split into the
(possibly empty) pieces between occurrences of `c`. -/
def splitChar (c : Char) : FileLine → List FileLine
  | [] => [[]]
  | ch :: rest =>
    match splitChar c rest with
    | [] => if ch = c then [[], []] else [[ch]]
    | h :: t => if ch = c then [] :: h :: t else (ch :: h) :: t

/-- Numeric value of a string of decimal digits (Python `int`). -/
def digitsVal (l : FileLine) : Nat :=
  l.foldl (fun a c => a * 10 + (c.toNat - 48)) 0

/-- Python's `str.isdigit()` restricted to ASCII: nonempty, all digits. -/
def isDigits (l : FileLine) : Bool :=
  !l.isEmpty && l.all Char.isDigit

/-- `ipaddress._parse_octet`: decimal digits only, at most three characters,
no leading zero, value at most 255. -/
def parseOctet (l : FileLine) : Option Nat :=
  if isDigits l ∧ l.length ≤ 3 ∧ (l.length = 1 ∨ l.headI ≠ '0') ∧ digitsVal l ≤ 255
  then some (digitsVal l) else none

/-- `ipaddress.IPv4Address` parsing of a dotted quad, as the 32-bit value. -/
def parseIPv4Addr (l : FileLine) : Option Nat :=
  match (splitChar '.' l).mapM parseOctet with
  | some [a, b, c, d] => some (((a * 256 + b) * 256 + c) * 256 + d)
  | _ => none

/-- `ipaddress._prefix_from_prefix_string`: decimal digits, value at most 32
(leading zeros are accepted there, matching `str.isdigit`). -/
def parsePrefixLen (l : FileLine) : Option Nat :=
  if isDigits l ∧ digitsVal l ≤ 32 then some (digitsVal l) else none

/-- An IPv4 network `addr/prefixlen`: `addr` is the 32-bit network address. -/
structure IPv4Net where
  addr : Nat
  prefixlen : Nat
deriving DecidableEq, Repr

/-- `IPv4Network.num_addresses`. -/
def IPv4Net.numAddresses (n : IPv4Net) : Nat := 2 ^ (32 - n.prefixlen)

/-- `IPv4Network.network_address`. -/
def IPv4Net.networkAddress (n : IPv4Net) : Nat := n.addr

/-- `IPv4Network.broadcast_address`. -/
def IPv4Net.broadcastAddress (n : IPv4Net) : Nat :=
  n.addr + n.numAddresses - 1

/-- `strict=False`: mask the host bits off the given address. -/
def maskAddr (a p : Nat) : Nat := a / 2 ^ (32 - p) * 2 ^ (32 - p)

/-- Parse one stripped line as `ipaddress.IPv4Network(line, strict=False)` in
its `a.b.c.d[/prefixlen]` form (a bare address gets prefix length 32). -/
def parseNetworkLine (l : FileLine) : Option IPv4Net :=
  match splitChar '/' l with
  | [a] => (parseIPv4Addr a).map (fun ip => ⟨ip, 32⟩)
  | [a, p] =>
    match parseIPv4Addr a, parsePrefixLen p with
    | some ip, some pl => some ⟨maskAddr ip pl, pl⟩
    | _, _ => none
  | _ => none

/-- One line of the range-list loop: strip it, skip it when blank or
`#`-prefixed, and otherwise try to parse it as a CIDR range (a malformed
line yields `none` and is skipped). -/
def parsedRangeLine (l : FileLine) : Option IPv4Net :=
  let s := stripLine l
  if s.isEmpty ∨ s.headI = '#' then none else parseNetworkLine s

/-- The valid networks of a range-list file, in file order.  This is the
`read_and_process` body of `_stream_ips_from_file` (the same filter appears
in `_count_total_ips_fast` and `_load_subnets`). -/
def parseSubnetFile (lines : List FileLine) : List IPv4Net :=
  lines.filterMap parsedRangeLine

/-! ## Counting pass (`_count_total_ips_fast`) -/

/-- Contribution of one valid range to the total:
`num_addresses` for a `/31` or `/32`, else `num_addresses - 2`. -/
def countContribution (n : IPv4Net) : Nat :=
  if 31 ≤ n.prefixlen then n.numAddresses else n.numAddresses - 2

/-- Accumulator step of `_count_total_ips_fast` for one file line. -/
def countLineStep (acc : Nat) (l : FileLine) : Nat :=
  match parsedRangeLine l with
  | some n => acc + countContribution n
  | none => acc

/-- `_count_total_ips_fast`: fold over the file lines, stripping each line,
skipping blank, `#`-prefixed and malformed lines, and adding the
contribution of each valid range. -/
def countTotalIpsFast (lines : List FileLine) : Nat :=
  lines.foldl countLineStep 0

/-! ## Streaming enumeration (`_stream_ips_from_file`) -/

/-- `net.subnets(new_prefix=24)`: the `/24` blocks of a coarser range. -/
def IPv4Net.subnets24 (n : IPv4Net) : List IPv4Net :=
  (List.range (2 ^ (24 - n.prefixlen))).map (fun i => ⟨n.addr + i * 256, 24⟩)

/-- The block list of `_stream_ips_from_file`: the range itself when its
prefix length is at least 24, else its `/24` blocks. -/
def IPv4Net.chunks24 (n : IPv4Net) : List IPv4Net :=
  if 24 ≤ n.prefixlen then [n] else n.subnets24

/-- `IPv4Network.hosts()`: both addresses for a `/31`, the single address for
a `/32`, and all addresses strictly between network and broadcast otherwise. -/
def IPv4Net.hostsList (n : IPv4Net) : List Nat :=
  if n.prefixlen = 32 then [n.addr]
  else if n.prefixlen = 31 then [n.addr, n.addr + 1]
  else (List.range (n.numAddresses - 2)).map (fun i => n.addr + 1 + i)

/-- Addresses emitted for one block, before shuffling: the network address
alone for a single-address block, else `hosts()`. -/
def emitBlock (b : IPv4Net) : List Nat :=
  if b.numAddresses = 1 then [b.networkAddress] else b.hostsList

/-- Addresses emitted for one valid range, in the unshuffled order. -/
def emitNet (n : IPv4Net) : List Nat := (n.chunks24.map emitBlock).flatten

/-- Whole-file emission of `_stream_ips_from_file` (all batches joined), in
the unshuffled order. -/
def streamIpsFlat (lines : List FileLine) : List Nat :=
  ((parseSubnetFile lines).map emitNet).flatten

/-- `e` is a possible per-range emission of `_stream_ips_from_file` for the
range `n`: the `/24` blocks are shuffled (`rng.shuffle(chunks)`), and within
each block the host addresses are shuffled (`rng.shuffle(ips)`). -/
def IsEmissionOfNet (e : List Nat) (n : IPv4Net) : Prop :=
  ∃ bl hs, bl.Perm n.chunks24 ∧
    List.Forall₂ (fun b h => List.Perm h (emitBlock b)) bl hs ∧
    e = hs.flatten

/-- `flat` is a possible whole-file emission of `_stream_ips_from_file`
(all batches joined): the valid ranges are shuffled (`rng.shuffle(subnets)`)
and each contributes one of its possible emissions. -/
def IsEnumerationOf (flat : List Nat) (lines : List FileLine) : Prop :=
  ∃ nets es, nets.Perm (parseSubnetFile lines) ∧
    List.Forall₂ (fun e n => IsEmissionOfNet e n) es nets ∧
    flat = es.flatten

/-! ### Batching (`chunk`, `chunk_size = 500`, final partial batch) -/

/-- `chunk_size = 500`. -/
def chunkSizeLimit : Nat := 500

/-- Append one host address to the current chunk; a full chunk is yielded
(the `if len(chunk) >= chunk_size` branch of the hosts loop). -/
def pushHostIp (st : List (List Nat) × List Nat) (ip : Nat) :
    List (List Nat) × List Nat :=
  if chunkSizeLimit ≤ (st.2 ++ [ip]).length then (st.1 ++ [st.2 ++ [ip]], [])
  else (st.1, st.2 ++ [ip])

/-- Append the single address of a `/32` block; this branch of the source
performs no chunk-size check. -/
def pushSingleIp (st : List (List Nat) × List Nat) (ip : Nat) :
    List (List Nat) × List Nat :=
  (st.1, st.2 ++ [ip])

/-- Process one block of a range in the batching fold. -/
def pushBlock (st : List (List Nat) × List Nat) (b : IPv4Net) :
    List (List Nat) × List Nat :=
  if b.numAddresses = 1 then pushSingleIp st b.networkAddress
  else b.hostsList.foldl pushHostIp st

/-- `_stream_ips_from_file` in the unshuffled order, as its batch sequence:
the final nonempty chunk is yielded after the loop. -/
def streamIpsFromFile (lines : List FileLine) : List (List Nat) :=
  let st := (parseSubnetFile lines).foldl
    (fun st n => n.chunks24.foldl pushBlock st) ([], [])
  if st.2.isEmpty then st.1 else st.1 ++ [st.2]

/-! ### Basic lemmas about batching and emissions -/

theorem pushHostIp_flatten (l : List Nat) (st : List (List Nat) × List Nat) :
    (l.foldl pushHostIp st).1.flatten ++ (l.foldl pushHostIp st).2 =
      st.1.flatten ++ st.2 ++ l := by
  induction l generalizing st with
  | nil => simp
  | cons ip rest ih =>
    rw [List.foldl_cons, ih]
    unfold pushHostIp
    split <;> simp

theorem pushBlock_flatten (b : IPv4Net) (st : List (List Nat) × List Nat) :
    (pushBlock st b).1.flatten ++ (pushBlock st b).2 =
      st.1.flatten ++ st.2 ++ emitBlock b := by
  unfold pushBlock emitBlock
  by_cases h : b.numAddresses = 1
  · simp [h, pushSingleIp]
  · simp [h, pushHostIp_flatten]

theorem chunksFold_flatten (bs : List IPv4Net) (st : List (List Nat) × List Nat) :
    (bs.foldl pushBlock st).1.flatten ++ (bs.foldl pushBlock st).2 =
      st.1.flatten ++ st.2 ++ (bs.map emitBlock).flatten := by
  induction bs generalizing st with
  | nil => simp
  | cons b rest ih =>
    rw [List.foldl_cons, ih, pushBlock_flatten]
    simp

theorem netsFold_flatten (ns : List IPv4Net) (st : List (List Nat) × List Nat) :
    ((ns.foldl (fun st n => n.chunks24.foldl pushBlock st) st).1.flatten ++
      (ns.foldl (fun st n => n.chunks24.foldl pushBlock st) st).2) =
      st.1.flatten ++ st.2 ++ (ns.map emitNet).flatten := by
  induction ns generalizing st with
  | nil => simp
  | cons n rest ih =>
    rw [List.foldl_cons, ih, chunksFold_flatten]
    simp [emitNet]

/-- The batches yielded by `_stream_ips_from_file` join to exactly the flat
emission sequence. -/
theorem streamIpsFromFile_flatten (lines : List FileLine) :
    (streamIpsFromFile lines).flatten = streamIpsFlat lines := by
  unfold streamIpsFromFile streamIpsFlat
  have h := netsFold_flatten (parseSubnetFile lines) ([], [])
  set st := (parseSubnetFile lines).foldl
    (fun st n => n.chunks24.foldl pushBlock st) ([], []) with hst
  by_cases h2 : st.2.isEmpty
  · simp only [h2, if_true]
    have : st.2 = [] := by simpa [List.isEmpty_iff] using h2
    simpa [this] using h
  · simp only [h2, if_false]
    simpa using h

/-- Pointwise permutations of the sublists join to a permutation. -/
theorem flatten_perm_of_forall₂ {α : Type} {l₁ l₂ : List (List α)}
    (h : List.Forall₂ (fun a b => List.Perm a b) l₁ l₂) :
    l₁.flatten.Perm l₂.flatten := by
  induction h with
  | nil => simp
  | cons hab _ ih => exact List.Perm.append hab ih

/-- Turn a pointwise "permutation of the image" relation into a `Forall₂`
of permutations against the mapped list. -/
theorem forall₂_perm_map {α β : Type} {f : β → List α} :
    ∀ {bl : List β} {hs : List (List α)},
      List.Forall₂ (fun b h => List.Perm h (f b)) bl hs →
      List.Forall₂ (fun a b => List.Perm a b) hs (bl.map f) := by
  intro bl hs h
  induction h with
  | nil => exact List.Forall₂.nil
  | cons hab _ ih => exact List.Forall₂.cons hab ih

/-- Every possible per-range emission is a permutation of the unshuffled one. -/
theorem isEmissionOfNet_perm {e : List Nat} {n : IPv4Net}
    (h : IsEmissionOfNet e n) : e.Perm (emitNet n) := by
  obtain ⟨bl, hs, hbl, hfa, he⟩ := h
  subst he
  have h1 : hs.flatten.Perm ((bl.map emitBlock).flatten) :=
    flatten_perm_of_forall₂ (forall₂_perm_map hfa)
  have h2 : ((bl.map emitBlock).flatten).Perm ((n.chunks24.map emitBlock).flatten) :=
    (hbl.map emitBlock).flatten
  exact (h1.trans h2)

/-- Every possible whole-file emission is a permutation of the unshuffled one. -/
theorem isEnumerationOf_perm {flat : List Nat} {lines : List FileLine}
    (h : IsEnumerationOf flat lines) : flat.Perm (streamIpsFlat lines) := by
  obtain ⟨nets, es, hnets, hfa, hflat⟩ := h
  subst hflat
  have h1 : es.flatten.Perm ((nets.map emitNet).flatten) := by
    apply flatten_perm_of_forall₂
    apply forall₂_perm_map
    exact (hfa.imp (fun _ _ hem => isEmissionOfNet_perm hem)).flip
  have h2 : ((nets.map emitNet).flatten).Perm
      (((parseSubnetFile lines).map emitNet).flatten) :=
    (hnets.map emitNet).flatten
  exact h1.trans h2

/-- The unshuffled per-range emission is itself a possible emission. -/
theorem isEmissionOfNet_self (n : IPv4Net) : IsEmissionOfNet (emitNet n) n := by
  refine ⟨n.chunks24, n.chunks24.map emitBlock, List.Perm.refl _, ?_, rfl⟩
  induction n.chunks24 with
  | nil => exact List.Forall₂.nil
  | cons b rest ih => exact List.Forall₂.cons (List.Perm.refl _) ih

/-- The unshuffled whole-file emission is itself a possible emission. -/
theorem isEnumerationOf_self (lines : List FileLine) :
    IsEnumerationOf (streamIpsFlat lines) lines := by
  refine ⟨parseSubnetFile lines, (parseSubnetFile lines).map emitNet,
    List.Perm.refl _, ?_, rfl⟩
  induction parseSubnetFile lines with
  | nil => exact List.Forall₂.nil
  | cons n rest ih => exact List.Forall₂.cons (isEmissionOfNet_self n) ih

/-! ### Arithmetic facts about emissions -/

theorem countTotalIps_foldl_aux :
    ∀ (lines : List FileLine) (acc : Nat),
      lines.foldl countLineStep acc =
        acc + ((parseSubnetFile lines).map countContribution).sum := by
  intro lines
  induction lines with
  | nil => simp [parseSubnetFile]
  | cons l rest ih =>
    intro acc
    cases h : parsedRangeLine l <;>
      simp [countLineStep, h, parseSubnetFile, List.filterMap_cons, ih,
        Nat.add_assoc]

/-- The counting pass totals exactly the per-range contributions of the
valid, non-skipped lines. -/
theorem countTotalIpsFast_eq_sum (lines : List FileLine) :
    countTotalIpsFast lines =
      ((parseSubnetFile lines).map countContribution).sum := by
  simpa using countTotalIps_foldl_aux lines 0

/-- Each emitted address of a range with prefix length below 31 differs from
both the range's network address and its broadcast address. -/
theorem mem_emitNet_bounds {x : Nat} {n : IPv4Net} (hp : n.prefixlen < 31)
    (hx : x ∈ emitNet n) :
    x ≠ n.networkAddress ∧ x ≠ n.broadcastAddress := by
  unfold emitNet at hx
  rw [List.mem_flatten] at hx
  obtain ⟨l, hl, hxl⟩ := hx
  rw [List.mem_map] at hl
  obtain ⟨b, hb, rfl⟩ := hl
  unfold IPv4Net.chunks24 at hb
  by_cases h24 : 24 ≤ n.prefixlen
  · -- the range itself is the single block
    simp only [h24, if_true, List.mem_singleton] at hb
    rw [hb] at hxl
    have hge4 : 4 ≤ n.numAddresses := by
      have : (2:Nat) ^ 2 ≤ 2 ^ (32 - n.prefixlen) :=
        Nat.pow_le_pow_right (by norm_num) (by omega)
      simpa [IPv4Net.numAddresses] using this
    have hne1 : n.numAddresses ≠ 1 := by omega
    simp only [emitBlock, hne1, if_false] at hxl
    unfold IPv4Net.hostsList at hxl
    have h32 : n.prefixlen ≠ 32 := by omega
    have h31 : n.prefixlen ≠ 31 := by omega
    simp only [h32, h31, if_false, List.mem_map, List.mem_range] at hxl
    obtain ⟨i, hi, rfl⟩ := hxl
    unfold IPv4Net.networkAddress IPv4Net.broadcastAddress
    omega
  · -- the blocks are the /24 subdivisions
    simp only [h24, if_false] at hb
    unfold IPv4Net.subnets24 at hb
    rw [List.mem_map] at hb
    obtain ⟨i, hi, rfl⟩ := hb
    rw [List.mem_range] at hi
    have hb256 : (IPv4Net.mk (n.addr + i * 256) 24).numAddresses = 256 := by
      simp [IPv4Net.numAddresses]
    have hne1 : (IPv4Net.mk (n.addr + i * 256) 24).numAddresses ≠ 1 := by
      omega
    simp only [emitBlock, hne1, if_false] at hxl
    unfold IPv4Net.hostsList at hxl
    simp only [hb256] at hxl
    norm_num at hxl
    obtain ⟨j, hj, rfl⟩ := hxl
    have hsplit : (2:Nat) ^ (32 - n.prefixlen) = 256 * 2 ^ (24 - n.prefixlen) := by
      rw [show 32 - n.prefixlen = 8 + (24 - n.prefixlen) by omega, pow_add]
      norm_num
    unfold IPv4Net.networkAddress IPv4Net.broadcastAddress IPv4Net.numAddresses
    rw [hsplit]
    omega

/-- Unshuffled emission size for a range coarser than /24. -/
theorem emitNet_length_of_lt24 {n : IPv4Net} (hp : n.prefixlen < 24) :
    (emitNet n).length =
      2 ^ (32 - n.prefixlen) - 2 * 2 ^ (24 - n.prefixlen) := by
  have h24 : ¬ 24 ≤ n.prefixlen := by omega
  have hsplit : (2:Nat) ^ (32 - n.prefixlen) = 256 * 2 ^ (24 - n.prefixlen) := by
    rw [show 32 - n.prefixlen = 8 + (24 - n.prefixlen) by omega, pow_add]
    norm_num
  have hblock : ∀ i : Nat,
      (emitBlock (IPv4Net.mk (n.addr + i * 256) 24)).length = 254 := by
    intro i
    have hb256 : (IPv4Net.mk (n.addr + i * 256) 24).numAddresses = 256 := by
      simp [IPv4Net.numAddresses]
    have hne1 : (IPv4Net.mk (n.addr + i * 256) 24).numAddresses ≠ 1 := by omega
    simp [emitBlock, hne1, IPv4Net.hostsList, hb256]
  unfold emitNet IPv4Net.chunks24
  simp only [h24, if_false]
  unfold IPv4Net.subnets24
  rw [List.length_flatten, List.map_map, List.map_map]
  simp only [Function.comp_def]
  rw [List.map_congr_left (fun i _ => hblock i)]
  simp [List.sum_replicate]
  rw [hsplit]
  have := Nat.one_le_two_pow (n := 24 - n.prefixlen)
  omega

/-! ## Concrete range files used by the explicit spec examples -/

/-- A 32-bit IPv4 address from its dotted quad. -/
def mkIp (a b c d : Nat) : Nat := ((a * 256 + b) * 256 + c) * 256 + d

/-- The C1 end-to-end file: `10.0.0.0/30` plus two malformed lines. -/
def c1File : List FileLine :=
  ["10.0.0.0/30".toList, "not a cidr".toList, "10.0.0.256/24".toList]

/-- The same file with a blank and a `#` comment line added; both are
skipped by the counting and streaming passes. -/
def c1FileWithSkipped : List FileLine :=
  ["  ".toList, "# comment".toList, "10.0.0.0/30".toList,
   "not a cidr".toList, "10.0.0.256/24".toList]

/-- Single-range file for the shuffle-rebuild example. -/
def c6File : List FileLine := ["10.0.0.0/30".toList]

/-! ## Shuffle-while-paused rebuild (`_shuffle_remaining_ips_async`) -/

/-- The list comprehension of `_shuffle_remaining_ips_async`: keep exactly
the enumerated addresses that are not in the found-server set
(`[ip for ip in all_ips if ip not in temp_tested_ips]` where
`temp_tested_ips = set(self.found_servers)`). -/
def remainingIpsRebuild (allIps : List Nat) (found : List Nat) : List Nat :=
  allIps.filter (fun ip => decide (ip ∉ found))

/-! ## Claim C1 -/

/-- C1: the counting pass contributes `size` addresses per valid range when
the prefix length is at least 31 and `size - 2` otherwise, skipping blank,
`#`-prefixed and malformed lines; for a file containing `10.0.0.0/30` plus
two malformed lines the computed total is exactly 2, and the streaming
enumerator emits exactly the two host addresses 10.0.0.1 and 10.0.0.2, each
exactly once, across all batches (the batches join to the flat emission). -/
theorem c1_count_and_enumeration :
    (∀ lines, countTotalIpsFast lines =
      ((parseSubnetFile lines).map countContribution).sum)
    ∧ (∀ lines, (streamIpsFromFile lines).flatten = streamIpsFlat lines)
    ∧ countTotalIpsFast c1File = 2
    ∧ countTotalIpsFast c1FileWithSkipped = 2
    ∧ (∀ flat, IsEnumerationOf flat c1File →
        flat.Perm [mkIp 10 0 0 1, mkIp 10 0 0 2]) := by
  refine ⟨countTotalIpsFast_eq_sum, streamIpsFromFile_flatten,
    by decide, by decide, ?_⟩
  intro flat h
  have h1 := isEnumerationOf_perm h
  have h2 : streamIpsFlat c1File = [mkIp 10 0 0 1, mkIp 10 0 0 2] := by decide
  rw [h2] at h1
  exact h1

/-- Witness for C1: the unshuffled stream of the example file is a possible
enumeration and is a permutation of the two expected host addresses. -/
theorem c1_count_and_enumeration_witness :
    IsEnumerationOf (streamIpsFlat c1File) c1File ∧
    (streamIpsFlat c1File).Perm [mkIp 10 0 0 1, mkIp 10 0 0 2] :=
  ⟨isEnumerationOf_self c1File,
    c1_count_and_enumeration.2.2.2.2 (streamIpsFlat c1File)
      (isEnumerationOf_self c1File)⟩

/-! ## Claim C7 -/

/-- C7: for every CIDR range with prefix length strictly below 31, no
address emitted by the streaming enumerator for that range equals the
range's network address or its broadcast address, whatever the shuffles. -/
theorem c7_no_network_or_broadcast :
    ∀ (n : IPv4Net), n.prefixlen < 31 →
    ∀ e, IsEmissionOfNet e n →
      n.networkAddress ∉ e ∧ n.broadcastAddress ∉ e := by
  intro n hp e he
  constructor
  · intro hmem
    exact absurd rfl
      (mem_emitNet_bounds hp ((isEmissionOfNet_perm he).mem_iff.mp hmem)).1
  · intro hmem
    exact absurd rfl
      (mem_emitNet_bounds hp ((isEmissionOfNet_perm he).mem_iff.mp hmem)).2

/-- Witness for C7 at the concrete range `10.0.0.0/30` with the unshuffled
emission. -/
theorem c7_no_network_or_broadcast_witness :
    (IPv4Net.mk (mkIp 10 0 0 0) 30).prefixlen < 31 ∧
    ((IPv4Net.mk (mkIp 10 0 0 0) 30).networkAddress ∉
        emitNet (IPv4Net.mk (mkIp 10 0 0 0) 30) ∧
      (IPv4Net.mk (mkIp 10 0 0 0) 30).broadcastAddress ∉
        emitNet (IPv4Net.mk (mkIp 10 0 0 0) 30)) :=
  ⟨by decide, c7_no_network_or_broadcast _ (by decide) _
    (isEmissionOfNet_self _)⟩

/-! ## Claim C10 -/

/-- C10: for every range with prefix length p < 24, every possible stream
emission for it has exactly 2^(32-p) - 2*2^(24-p) addresses (the network
and broadcast address of every /24 sub-block are excluded), strictly fewer
than the 2^(32-p) - 2 addresses the counting pass reports for the range. -/
theorem c10_emission_undercount :
    ∀ (n : IPv4Net), n.prefixlen < 24 →
    ∀ e, IsEmissionOfNet e n →
      e.length = 2 ^ (32 - n.prefixlen) - 2 * 2 ^ (24 - n.prefixlen) ∧
      countContribution n = 2 ^ (32 - n.prefixlen) - 2 ∧
      e.length < countContribution n := by
  intro n hp e he
  have hlen : e.length = (emitNet n).length :=
    (isEmissionOfNet_perm he).length_eq
  have h1 := emitNet_length_of_lt24 hp
  have hc : countContribution n = 2 ^ (32 - n.prefixlen) - 2 := by
    unfold countContribution IPv4Net.numAddresses
    have h31 : ¬ 31 ≤ n.prefixlen := by omega
    simp [h31]
  refine ⟨hlen.trans h1, hc, ?_⟩
  rw [hlen.trans h1, hc]
  have hsplit : (2:Nat) ^ (32 - n.prefixlen) = 256 * 2 ^ (24 - n.prefixlen) := by
    rw [show 32 - n.prefixlen = 8 + (24 - n.prefixlen) by omega, pow_add]
    norm_num
  have h2 : 2 ≤ 2 ^ (24 - n.prefixlen) := by
    have h := Nat.pow_le_pow_right (show 1 ≤ 2 by norm_num)
      (show 1 ≤ 24 - n.prefixlen by omega)
    simpa using h
  omega

/-- Witness for C10 at the concrete range `10.0.0.0/23`: 508 addresses are
emitted while the counting pass reports 510. -/
theorem c10_emission_undercount_witness :
    (IPv4Net.mk (mkIp 10 0 0 0) 23).prefixlen < 24 ∧
    (emitNet (IPv4Net.mk (mkIp 10 0 0 0) 23)).length = 508 ∧
    countContribution (IPv4Net.mk (mkIp 10 0 0 0) 23) = 510 := by
  refine ⟨by decide, ?_, by decide⟩
  have h := c10_emission_undercount (IPv4Net.mk (mkIp 10 0 0 0) 23)
    (by decide) _ (isEmissionOfNet_self _)
  have h1 := h.1
  norm_num at h1
  exact h1

/-! ## Claim C6 -/

/-- C6: the shuffle-while-paused rebuild re-runs enumeration from scratch
and excludes exactly the set of found addresses, no more and no fewer: an
address is in the rebuilt remaining list (before its random permutation)
iff it is enumerated and not found; in particular for the file
`10.0.0.0/30` with found set {10.0.0.2}, the previously probed
non-responsive address 10.0.0.1 reappears in the rebuilt set. -/
theorem c6_shuffle_rebuild :
    (∀ (lines : List FileLine) (found : List Nat) (flat r : List Nat),
      IsEnumerationOf flat lines →
      r.Perm (remainingIpsRebuild flat found) →
      ∀ x, x ∈ r ↔ (x ∈ flat ∧ x ∉ found))
    ∧ mkIp 10 0 0 1 ∈ remainingIpsRebuild (streamIpsFlat c6File) [mkIp 10 0 0 2]
    ∧ mkIp 10 0 0 1 ∉ [mkIp 10 0 0 2] := by
  refine ⟨?_, by decide, by decide⟩
  intro lines found flat r _ hr x
  rw [hr.mem_iff]
  unfold remainingIpsRebuild
  rw [List.mem_filter]
  simp

/-- Witness for C6: the membership characterization applied to the concrete
rebuilt list of the example file. -/
theorem c6_shuffle_rebuild_witness :
    IsEnumerationOf (streamIpsFlat c6File) c6File ∧
    (mkIp 10 0 0 1 ∈ remainingIpsRebuild (streamIpsFlat c6File) [mkIp 10 0 0 2] ↔
      (mkIp 10 0 0 1 ∈ streamIpsFlat c6File ∧
        mkIp 10 0 0 1 ∉ [mkIp 10 0 0 2])) :=
  ⟨isEnumerationOf_self c6File,
    c6_shuffle_rebuild.1 c6File [mkIp 10 0 0 2] (streamIpsFlat c6File)
      (remainingIpsRebuild (streamIpsFlat c6File) [mkIp 10 0 0 2])
      (isEnumerationOf_self c6File) (List.Perm.refl _) (mkIp 10 0 0 1)⟩

/-! ## Prober (`_test_dns`) -/

/-- Outcome of the single DNS query issued by `_test_dns` for one candidate:
an answer (with its Python truthiness and the elapsed seconds), a DNS
protocol error with its `aiodns` error code and elapsed time, a
transport-level timeout (`asyncio.TimeoutError`), or any other unexpected
exception. -/
inductive ProbeOutcome where
  | answer (truthy : Bool) (elapsed : ℚ)
  | dnsError (code : Nat) (elapsed : ℚ)
  | timeoutErr
  | unexpectedErr
deriving DecidableEq

/-- The fixed probe timeout: `timeout=2.0` seconds, `tries=1`. -/
def dnsTimeout : ℚ := 2

/-- `_test_dns` classification, returning (responsive, latency) exactly as
the source returns `(ip, True, elapsed)` or `(ip, False, 0)` on each branch:
a truthy answer inside the timeout is responsive; a truthy answer at or over
the timeout is rejected; a falsy answer is no response; a DNS error with
code 1 (NXDOMAIN), 3 (NXRRSET) or 4 (NODATA) inside the timeout is
responsive; the same codes over the timeout, any other DNS error, a
timeout, or an unexpected exception are all non-responsive (exceptions are
caught, never propagated). -/
def testDns : ProbeOutcome → Bool × ℚ
  | .answer t e =>
    if t then (if e < dnsTimeout then (true, e) else (false, 0))
    else (false, 0)
  | .dnsError c e =>
    if c = 1 ∨ c = 3 ∨ c = 4 then
      (if e < dnsTimeout then (true, e) else (false, 0))
    else (false, 0)
  | .timeoutErr => (false, 0)
  | .unexpectedErr => (false, 0)

/-- The spec's classification rule, stated from the spec's words: responsive
iff an answer arrives inside the timeout, or the resolver returns a
liveness-proving protocol error (domain-not-found, no-data-of-type,
record-type-unsupported, codes 1, 3, 4) inside the timeout. -/
def ResponsiveSpec : ProbeOutcome → Prop
  | .answer t e => t = true ∧ e < dnsTimeout
  | .dnsError c e => (c = 1 ∨ c = 3 ∨ c = 4) ∧ e < dnsTimeout
  | .timeoutErr => False
  | .unexpectedErr => False

/-! ## Claim C2 -/

/-- C2: a probe is classified responsive iff an answer arrives within the
2-second timeout or the resolver returns a liveness-proving protocol error
(codes 1, 3, 4) within the timeout; the recorded latency is 0 for every
non-responsive result, and a positive latency implies a responsive
classification; transport failures, too-slow answers, other protocol
errors and unexpected exceptions are all total, non-propagating,
non-responsive cases of `testDns`. -/
theorem c2_probe_classification :
    ∀ o : ProbeOutcome,
      ((testDns o).1 = true ↔ ResponsiveSpec o)
      ∧ ((testDns o).1 = false → (testDns o).2 = 0)
      ∧ (0 < (testDns o).2 → (testDns o).1 = true) := by
  intro o
  cases o with
  | answer t e =>
    cases t <;> by_cases he : e < dnsTimeout <;>
      simp [testDns, ResponsiveSpec, he]
  | dnsError c e =>
    by_cases hc : c = 1 ∨ c = 3 ∨ c = 4 <;> by_cases he : e < dnsTimeout <;>
      simp [testDns, ResponsiveSpec, hc, he]
  | timeoutErr => simp [testDns, ResponsiveSpec]
  | unexpectedErr => simp [testDns, ResponsiveSpec]

/-! ## ResultStore ranking (`_rebuild_table`) -/

/-- The `sort_key` priority of `_rebuild_table`: Success=0, Testing=1,
Pending=2, N/A=3, anything else (Failed)=4. -/
def proxyPriority (status : String) : Nat :=
  if status = "Success" then 0
  else if status = "Testing" then 1
  else if status = "Pending" then 2
  else if status = "N/A" then 3
  else 4

/-- `self.proxy_results.get(server_ip, "N/A")`: an address that never
entered validation (NotRequested) is absent and shown as N/A. -/
def proxyStatusOf (proxyResults : List (String × String)) (ip : String) :
    String :=
  (proxyResults.lookup ip).getD "N/A"

/-- The comparison realized by Python's stable `sorted(key=sort_key)` in
`_rebuild_table`: ascending lexicographic (priority, response-time). -/
def rankLe (proxyResults : List (String × String)) (a b : String × ℚ) :
    Prop :=
  proxyPriority (proxyStatusOf proxyResults a.1) <
      proxyPriority (proxyStatusOf proxyResults b.1)
    ∨ (proxyPriority (proxyStatusOf proxyResults a.1) =
        proxyPriority (proxyStatusOf proxyResults b.1) ∧ a.2 ≤ b.2)

instance (pr : List (String × String)) : DecidableRel (rankLe pr) :=
  fun a b => by
    unfold rankLe
    infer_instance

/-- `_rebuild_table`: the (address, latency) entries of the result store,
sorted stably by `sort_key` (insertion sort is stable, like Python's
`sorted`). -/
def rebuildTableOrder (entries : List (String × ℚ))
    (proxyResults : List (String × String)) : List (String × ℚ) :=
  entries.insertionSort (rankLe proxyResults)

/-! ## Claim C9 -/

/-- C9: the ranking orders entries ascending by validation tier Success (0),
Testing (1), Pending (2), NotRequested shown as N/A (3), Failed (4), and
within an equal tier ascending by recorded latency; the output is a
permutation of the store sorted by that order, and for the store
{A:(Success,50), B:(Failed,10), C:(Pending,20)} the ranked order is
[A, C, B]. -/
theorem c9_ranking :
    (∀ entries pr, (rebuildTableOrder entries pr).Perm entries
      ∧ List.Sorted (rankLe pr) (rebuildTableOrder entries pr))
    ∧ (proxyPriority "Success" = 0 ∧ proxyPriority "Testing" = 1
      ∧ proxyPriority "Pending" = 2 ∧ proxyPriority "N/A" = 3
      ∧ proxyPriority "Failed" = 4)
    ∧ proxyStatusOf [] "A" = "N/A"
    ∧ rebuildTableOrder [("A", 50), ("B", 10), ("C", 20)]
        [("A", "Success"), ("B", "Failed"), ("C", "Pending")]
      = [("A", 50), ("C", 20), ("B", 10)] := by
  refine ⟨?_, by decide, by decide, by decide⟩
  intro entries pr
  haveI htot : IsTotal (String × ℚ) (rankLe pr) := by
    constructor
    intro a b
    rcases Nat.lt_trichotomy (proxyPriority (proxyStatusOf pr a.1))
      (proxyPriority (proxyStatusOf pr b.1)) with h | h | h
    · exact Or.inl (Or.inl h)
    · rcases le_total a.2 b.2 with h2 | h2
      · exact Or.inl (Or.inr ⟨h, h2⟩)
      · exact Or.inr (Or.inr ⟨h.symm, h2⟩)
    · exact Or.inr (Or.inl h)
  haveI htr : IsTrans (String × ℚ) (rankLe pr) := by
    constructor
    intro a b c hab hbc
    rcases hab with h1 | ⟨h1, h1q⟩ <;> rcases hbc with h2 | ⟨h2, h2q⟩
    · exact Or.inl (h1.trans h2)
    · exact Or.inl (h2 ▸ h1)
    · exact Or.inl (h1 ▸ h2)
    · exact Or.inr ⟨h1.trans h2, h1q.trans h2q⟩
  exact ⟨List.perm_insertionSort _ _, List.sorted_insertionSort _ _⟩

/-! ## Validation run (`_test_slipstream_proxy`) -/

/-- Outcome of one proxied request attempt (an `httpx` GET through the
bound port with `timeout=15.0` against the fixed target
`http://google.com`): either a response with its status code, or a raised
exception (connect error, timeout, protocol error, ...). -/
inductive AttemptOutcome where
  | response (status : Nat)
  | exn
deriving DecidableEq

/-- The accepted status set: `response.status_code in (200, 301, 302)`. -/
def acceptedStatuses : List Nat := [200, 301, 302]

/-- The per-attempt request timeout in seconds (`timeout=15.0`). -/
def proxyRequestTimeout : ℚ := 15

/-- The fixed external target of both attempts. -/
def proxyTestTarget : String := "http://google.com"

/-- Whether one attempt outcome is a response with an accepted status. -/
def attemptAccepted : AttemptOutcome → Bool
  | .response s => acceptedStatuses.contains s
  | .exn => false

/-- Whether the SOCKS5 fallback runs at all: the SOCKS5 block of the source
sits inside the `except` handler of the HTTP attempt, so it runs exactly
when the HTTP request raised — not when HTTP returned a response with a
non-accepted status. -/
def socksAttempted : AttemptOutcome → Bool
  | .response _ => false
  | .exn => true

/-- The protocol-probe phase of `_test_slipstream_proxy`: the value of
`test_success` after the HTTP attempt and the conditional SOCKS5 attempt. -/
def protoPhaseSuccess (http socks : AttemptOutcome) : Bool :=
  match http with
  | .response s => acceptedStatuses.contains s
  | .exn => attemptAccepted socks

/-- The handshake-phase behaviour of one spawned validation process: the
readiness marker line ("Connection ready") first appears at time `t`
(`markerAt`), the merged output stream ends without the marker at time `t`
(`eofAt`), or neither ever happens (`silent`). -/
inductive ReadyOutcome where
  | markerAt (t : ℚ)
  | eofAt (t : ℚ)
  | silent
deriving DecidableEq

/-- The handshake deadline:
`asyncio.wait_for(wait_for_connection_ready(), timeout=15)`. -/
def readyDeadline : ℚ := 15

/-- Whether `connection_ready` ends up `True`: the marker must appear
before the 15-second deadline; an early end of stream breaks the read loop
with the flag still false, and an elapsed deadline raises `TimeoutError`
(returned as Failed). -/
def connectionReadySucceeds : ReadyOutcome → Bool
  | .markerAt t => decide (t < readyDeadline)
  | .eofAt _ => false
  | .silent => false

/-- One `_test_slipstream_proxy` run, as the abstract behaviour of its
external interactions: the handshake outcome, both protocol attempt
outcomes, and whether the final `process.kill()` raises
`ProcessLookupError`/`OSError` because the child had already exited and
been reaped (as can happen after an early end of stream). -/
structure SlipstreamRun where
  ready : ReadyOutcome
  http : AttemptOutcome
  socks : AttemptOutcome
  killRaises : Bool
deriving DecidableEq

/-- The string `_test_slipstream_proxy` returns: Failed when readiness
never arrives (deadline or early EOF), else the protocol-probe verdict. -/
def testSlipstreamProxy (r : SlipstreamRun) : String :=
  if connectionReadySucceeds r.ready then
    if protoPhaseSuccess r.http r.socks then "Success" else "Failed"
  else "Failed"

/-- Effect of the run on `self.slipstream_processes`: the process is
appended at spawn, and the `finally` block kills, awaits and removes it —
but when `process.kill()` raises, the `except` branch skips both the await
and the removal, leaving the entry in the list. -/
def slipstreamProcessesAfter (r : SlipstreamRun) (tracked : List Nat)
    (pid : Nat) : List Nat :=
  if r.killRaises then tracked ++ [pid] else (tracked ++ [pid]).erase pid

/-- Whether the `finally` block terminated and awaited the child process. -/
def processKilledAndAwaited (r : SlipstreamRun) : Bool := !r.killRaises

/-! ## Claim C4 -/

/-- C4 counterexample: when the HTTP attempt returns status 404 and the
SOCKS5 proxy would have answered 200, the code returns Failed without ever
attempting SOCKS5 — yet the claim ("attempts, in fixed order, HTTP and
then SOCKS5 ...; first success wins; the result is Failed exactly when both
attempts fail") demands Success at this input, since the second attempt
would succeed. -/
theorem c4_counterexample :
    protoPhaseSuccess (.response 404) (.response 200) = false
    ∧ attemptAccepted (.response 200) = true
    ∧ socksAttempted (.response 404) = false := by decide

/-- C4 (amended): the HTTP proxy attempt always runs first; the SOCKS5
attempt runs only when the HTTP attempt raised an exception (never after a
non-accepted HTTP status); the result is Success exactly when the HTTP
response status is accepted, or HTTP raised and the SOCKS5 response status
is accepted; each attempt is a single request with a 15-second timeout
against the fixed external target, and the accepted set is
{200, 301, 302}. -/
theorem c4_proto_fallback_amended :
    (∀ http socks : AttemptOutcome,
      protoPhaseSuccess http socks =
        (attemptAccepted http ||
          (socksAttempted http && attemptAccepted socks)))
    ∧ acceptedStatuses = [200, 301, 302]
    ∧ proxyRequestTimeout = 15
    ∧ proxyTestTarget = "http://google.com" := by
  refine ⟨?_, rfl, rfl, rfl⟩
  intro http socks
  cases http <;> cases socks <;>
    simp [protoPhaseSuccess, attemptAccepted, socksAttempted]

/-! ## Claim C8 -/

/-- C8 counterexample: a run whose stream ends early (child exited) so that
the final `kill()` raises `ProcessLookupError` is classified Failed as the
claim says, but the process entry is NOT removed from the tracked list —
the removal sits after `kill()` and `wait()` inside the `try` of the
`finally` block and is skipped by the `except` — contradicting the claim's
"removed from the process-wide tracked-process list on every exit path". -/
theorem c8_counterexample :
    testSlipstreamProxy ⟨.eofAt 1, .exn, .exn, true⟩ = "Failed"
    ∧ slipstreamProcessesAfter ⟨.eofAt 1, .exn, .exn, true⟩ [] 7 = [7]
    ∧ processKilledAndAwaited ⟨.eofAt 1, .exn, .exn, true⟩ = false := by
  decide

/-- C8 (amended): every run whose readiness marker does not appear within
the 15-second deadline — the deadline elapses, the stream ends early, or
the process stays silent — is classified Failed; on that exit path (as on
every exit path) `kill()` is invoked, and provided it succeeds (the child
had not already exited) the process is awaited and removed from the
tracked list; when `kill()` raises because the child already exited, the
await and the removal are skipped and the dead child's entry remains
tracked. -/
theorem c8_ready_failure_amended :
    ∀ (r : SlipstreamRun) (tracked : List Nat) (pid : Nat),
      connectionReadySucceeds r.ready = false →
      testSlipstreamProxy r = "Failed"
      ∧ (r.killRaises = false → pid ∉ tracked →
          slipstreamProcessesAfter r tracked pid = tracked
          ∧ processKilledAndAwaited r = true)
      ∧ (r.killRaises = true →
          slipstreamProcessesAfter r tracked pid = tracked ++ [pid]) := by
  intro r tracked pid hready
  refine ⟨?_, ?_, ?_⟩
  · unfold testSlipstreamProxy
    rw [hready]
    simp
  · intro hk hpid
    constructor
    · unfold slipstreamProcessesAfter
      rw [hk]
      simp only [Bool.false_eq_true, if_false]
      rw [List.erase_append_right _ (by simpa using hpid)]
      simp
    · unfold processKilledAndAwaited
      rw [hk]
      rfl
  · intro hk
    unfold slipstreamProcessesAfter
    rw [hk]
    simp

/-- Witness for C8 (amended) at a run whose marker appears only after the
deadline, with a successful kill. -/
theorem c8_ready_failure_amended_witness :
    connectionReadySucceeds (ReadyOutcome.markerAt 20) = false
    ∧ testSlipstreamProxy ⟨.markerAt 20, .exn, .exn, false⟩ = "Failed"
    ∧ slipstreamProcessesAfter ⟨.markerAt 20, .exn, .exn, false⟩ [] 7 = [] :=
  ⟨by decide,
    (c8_ready_failure_amended ⟨.markerAt 20, .exn, .exn, false⟩ [] 7
      (by decide)).1,
    ((c8_ready_failure_amended ⟨.markerAt 20, .exn, .exn, false⟩ [] 7
      (by decide)).2.1 rfl (by decide)).1⟩

/-- Witness for C2 at concrete probe outcomes: a fast truthy answer is
responsive, a DNS error with a non-liveness code is non-responsive with
latency 0. -/
theorem c2_probe_classification_witness :
    (testDns (.answer true 1)).1 = true
    ∧ (testDns (.dnsError 2 1)).1 = false
    ∧ (testDns (.dnsError 2 1)).2 = 0 :=
  ⟨by decide, by decide,
    (c2_probe_classification (.dnsError 2 1)).2.1 (by decide)⟩

/-! ## Validation port pool (`_scan_async` init, `_queue_slipstream_test`) -/

/-- `self.slipstream_max_concurrent = 5`. -/
def slipstreamMaxConcurrent : Nat := 5

/-- `self.slipstream_base_port = 10800`. -/
def slipstreamBasePort : Nat := 10800

/-- `self.available_ports =
deque(range(slipstream_base_port, slipstream_base_port + slipstream_max_concurrent))`. -/
def initialPorts : List Nat :=
  List.range' slipstreamBasePort slipstreamMaxConcurrent

/-- State of the validation orchestrator between suspension points of the
single-threaded event loop: the available-port deque, the semaphore's free
count, how many validation tasks wait to enter the semaphore, how many hold
the semaphore while polling for a port, the ports held by the tasks inside
their Testing section (one entry per such task), the number of addresses
currently marked Testing by a live task, and how many tasks have exited. -/
structure OrchState where
  pool : List Nat
  sem : Nat
  nWaitSem : Nat
  nWaitPort : Nat
  held : List Nat
  nTesting : Nat
  nFinished : Nat
deriving DecidableEq, Repr

/-- The orchestrator state right after `_scan_async` creates the semaphore
and the port deque. -/
def orchInit : OrchState :=
  ⟨initialPorts, slipstreamMaxConcurrent, 0, 0, [], 0, 0⟩

/-- Atomic transitions of `_queue_slipstream_test` tasks between suspension
points:
* `spawn` — `_process_result` creates a new validation task;
* `acquire` — a task enters `async with self.slipstream_semaphore`;
* `borrow` — a task exits the polling loop and pops the leftmost port
  (`popleft`), then marks the address Testing; there is no suspension point
  between the emptiness check, the pop and the mark, so this is one step;
* `finish` — a task leaves its Testing section, normally or by
  cancellation: the result (or stale mark) replaces Testing, the `finally`
  block appends the port back, and the `async with` exit releases the
  semaphore, all before the task ends;
* `cancelWaitSem` — a task is cancelled while waiting for the semaphore
  (nothing held);
* `cancelWaitPort` — a task is cancelled inside the polling loop: it holds
  no port, and the `async with` exit releases the semaphore. -/
inductive OrchStep : OrchState → OrchState → Prop
  | spawn (s : OrchState) :
      OrchStep s { s with nWaitSem := s.nWaitSem + 1 }
  | acquire (s : OrchState) (h : 0 < s.nWaitSem) (hsem : 0 < s.sem) :
      OrchStep s { s with nWaitSem := s.nWaitSem - 1,
                          nWaitPort := s.nWaitPort + 1, sem := s.sem - 1 }
  | borrow (s : OrchState) (p : Nat) (rest : List Nat)
      (h : 0 < s.nWaitPort) (hp : s.pool = p :: rest) :
      OrchStep s { s with nWaitPort := s.nWaitPort - 1, pool := rest,
                          held := p :: s.held, nTesting := s.nTesting + 1 }
  | finish (s : OrchState) (p : Nat) (l₁ l₂ : List Nat)
      (hheld : s.held = l₁ ++ p :: l₂) :
      OrchStep s { s with held := l₁ ++ l₂, pool := s.pool ++ [p],
                          sem := s.sem + 1, nTesting := s.nTesting - 1,
                          nFinished := s.nFinished + 1 }
  | cancelWaitSem (s : OrchState) (h : 0 < s.nWaitSem) :
      OrchStep s { s with nWaitSem := s.nWaitSem - 1,
                          nFinished := s.nFinished + 1 }
  | cancelWaitPort (s : OrchState) (h : 0 < s.nWaitPort) :
      OrchStep s { s with nWaitPort := s.nWaitPort - 1, sem := s.sem + 1,
                          nFinished := s.nFinished + 1 }

/-- Reachability from the initialized orchestrator state. -/
def OrchReachable (s : OrchState) : Prop :=
  Relation.ReflTransGen OrchStep orchInit s

/-- Inductive invariant of the orchestrator: available plus borrowed ports
are a permutation of the initial pool; free semaphore slots plus tasks past
the semaphore total the limit; the Testing mark count tracks the borrowed
ports. -/
def OrchInv (s : OrchState) : Prop :=
  (s.pool ++ s.held).Perm initialPorts
  ∧ s.sem + s.nWaitPort + s.held.length = slipstreamMaxConcurrent
  ∧ s.nTesting = s.held.length

theorem orchInv_init : OrchInv orchInit := by
  refine ⟨?_, by decide, by decide⟩
  simp [orchInit]

theorem orchInv_step {s s' : OrchState} (h : OrchInv s)
    (hstep : OrchStep s s') : OrchInv s' := by
  obtain ⟨hperm, hsum, htest⟩ := h
  cases hstep with
  | spawn => exact ⟨hperm, hsum, htest⟩
  | acquire h hsem =>
    exact ⟨hperm, by simp only; omega, htest⟩
  | borrow p rest h hp =>
    rw [hp] at hperm
    refine ⟨?_, by simp only [List.length_cons]; omega,
      by simp only [List.length_cons]; omega⟩
    simp only
    exact List.perm_middle.trans hperm
  | finish p l₁ l₂ hheld =>
    rw [hheld] at hperm hsum htest
    simp only [List.length_append, List.length_cons] at hsum htest
    refine ⟨?_, by simp only [List.length_append]; omega,
      by simp only [List.length_append]; omega⟩
    simp only
    have heq : (s.pool ++ [p]) ++ (l₁ ++ l₂) = s.pool ++ (p :: (l₁ ++ l₂)) := by
      simp
    rw [heq]
    exact (List.Perm.append_left s.pool List.perm_middle.symm).trans hperm
  | cancelWaitSem h => exact ⟨hperm, hsum, htest⟩
  | cancelWaitPort h =>
    exact ⟨hperm, by simp only; omega, htest⟩

theorem orchInv_reachable {s : OrchState} (h : OrchReachable s) :
    OrchInv s := by
  induction h with
  | refl => exact orchInv_init
  | tail _ hstep ih => exact orchInv_step ih hstep

/-! ## Claim C3 -/

/-- C3: the port pool is initialized with exactly as many ports as the
validation concurrency limit (5), all distinct; in every reachable
orchestrator state the available plus borrowed ports are a permutation of
the initial pool (every borrowed port is returned on every exit path,
including failure and cancellation, so the pool's cardinality is constant
for the run's lifetime), the borrowed ports are pairwise distinct (at most
one validation task holds any given port at a time), and the number of
validations in Testing state equals the number of currently borrowed ports
and never exceeds the semaphore limit. -/
theorem c3_port_pool_invariant :
    initialPorts.length = slipstreamMaxConcurrent
    ∧ initialPorts.Nodup
    ∧ (∀ s, OrchReachable s →
        (s.pool ++ s.held).Perm initialPorts
        ∧ s.held.Nodup
        ∧ s.nTesting = s.held.length
        ∧ s.nTesting ≤ slipstreamMaxConcurrent
        ∧ s.pool.length + s.held.length = slipstreamMaxConcurrent) := by
  refine ⟨by decide, by decide, ?_⟩
  intro s hs
  obtain ⟨hperm, hsum, htest⟩ := orchInv_reachable hs
  have hnodup : (s.pool ++ s.held).Nodup :=
    hperm.nodup_iff.mpr (by decide)
  have hlen : s.pool.length + s.held.length = slipstreamMaxConcurrent := by
    have := hperm.length_eq
    simp only [List.length_append] at this
    rw [this]
    decide
  exact ⟨hperm, List.Nodup.of_append_right hnodup, htest, by omega, hlen⟩

/-- Witness for C3 at the freshly initialized orchestrator state. -/
theorem c3_port_pool_invariant_witness :
    OrchReachable orchInit
    ∧ ((orchInit.pool ++ orchInit.held).Perm initialPorts
      ∧ orchInit.held.Nodup
      ∧ orchInit.nTesting = orchInit.held.length
      ∧ orchInit.nTesting ≤ slipstreamMaxConcurrent
      ∧ orchInit.pool.length + orchInit.held.length =
          slipstreamMaxConcurrent) :=
  ⟨Relation.ReflTransGen.refl,
    c3_port_pool_invariant.2.2 orchInit Relation.ReflTransGen.refl⟩

/-! ## Per-address validation state (`proxy_results` transitions) -/

/-- The spec's ValidationState: NotRequested is the absence of a
`proxy_results` entry; Pending, Testing, Success and Failed are the strings
the source stores. -/
inductive VState where
  | notRequested
  | pending
  | testing
  | success
  | failed
deriving DecidableEq, Repr

/-- Per-address bookkeeping: the stored state, how many validation tasks
for the address were created but have not yet entered their Testing
section, and how many are currently inside it. -/
structure IpValidation where
  state : VState
  spawned : Nat
  running : Nat
deriving DecidableEq, Repr

/-- Before any probe result: no `proxy_results` entry, no tasks. -/
def ipValidationInit : IpValidation := ⟨.notRequested, 0, 0⟩

/-- Events of one scan that touch the per-address validation state:
* `probeResult ip responsive` — `_process_result` handles one probe
  result; when responsive (with validation enabled) it stores "Pending"
  and spawns a `_queue_slipstream_test` task;
* `enterTesting ip` — a spawned task claims a port and stores "Testing";
* `finishTesting ip ok` — a task inside its Testing section stores
  "Success" or "Failed";
* `cancelSpawned ip` / `cancelTesting ip` — a task is cancelled before or
  inside its Testing section, storing nothing. -/
inductive ScanEvent where
  | probeResult (ip : Nat) (responsive : Bool)
  | enterTesting (ip : Nat)
  | finishTesting (ip : Nat) (ok : Bool)
  | cancelSpawned (ip : Nat)
  | cancelTesting (ip : Nat)
deriving DecidableEq, Repr

/-- The address an event concerns. -/
def ScanEvent.ip : ScanEvent → Nat
  | .probeResult i _ => i
  | .enterTesting i => i
  | .finishTesting i _ => i
  | .cancelSpawned i => i
  | .cancelTesting i => i

/-- Effect of one event on the bookkeeping of its own address; an event
whose guard fails (an `enterTesting` with no spawned task, a
`finishTesting` or `cancelTesting` with no running task) changes nothing. -/
def updOne (st : IpValidation) : ScanEvent → IpValidation
  | .probeResult _ true =>
    ⟨.pending, st.spawned + 1, st.running⟩
  | .probeResult _ false => st
  | .enterTesting _ =>
    if 0 < st.spawned then ⟨.testing, st.spawned - 1, st.running + 1⟩
    else st
  | .finishTesting _ ok =>
    if 0 < st.running then
      ⟨if ok then .success else .failed, st.spawned, st.running - 1⟩
    else st
  | .cancelSpawned _ =>
    if 0 < st.spawned then { st with spawned := st.spawned - 1 } else st
  | .cancelTesting _ =>
    if 0 < st.running then { st with running := st.running - 1 } else st

/-- Apply one event to the per-address validation map. -/
def applyEvent (m : Nat → IpValidation) (e : ScanEvent) :
    Nat → IpValidation :=
  fun j => if j = e.ip then updOne (m j) e else m j

/-- Validation map after a sequence of events of one scan. -/
def runEvents (evts : List ScanEvent) : Nat → IpValidation :=
  evts.foldl applyEvent (fun _ => ipValidationInit)

/-- The forward transitions the claim allows: stay put, NotRequested →
Pending, Pending → Testing, Testing → Success and Testing → Failed. -/
def forwardOK : VState → VState → Bool
  | .notRequested, .pending => true
  | .pending, .testing => true
  | .testing, .success => true
  | .testing, .failed => true
  | a, b => a == b

/-- Whether an event is a responsive probe result for the address. -/
def isFoundEventFor (ip : Nat) : ScanEvent → Bool
  | .probeResult j true => j == ip
  | _ => false

/-- Number of responsive probe results an address receives in the trace. -/
def foundCount (evts : List ScanEvent) (ip : Nat) : Nat :=
  evts.countP (isFoundEventFor ip)

theorem forwardOK_refl (a : VState) : forwardOK a a = true := by
  cases a <;> rfl

theorem runEvents_append (l : List ScanEvent) (e : ScanEvent) :
    runEvents (l ++ [e]) = applyEvent (runEvents l) e := by
  unfold runEvents
  rw [List.foldl_append]
  rfl

theorem applyEvent_other {m : Nat → IpValidation} {e : ScanEvent} {ip : Nat}
    (h : ¬ e.ip = ip) : applyEvent m e ip = m ip := by
  unfold applyEvent
  rw [if_neg (fun hc => h hc.symm)]

theorem applyEvent_own {m : Nat → IpValidation} {e : ScanEvent} {ip : Nat}
    (h : e.ip = ip) : applyEvent m e ip = updOne (m ip) e := by
  unfold applyEvent
  rw [if_pos h.symm]

/-- With no responsive probe result for the address, its entry stays at the
initial bookkeeping. -/
theorem foldl_zero_found :
    ∀ (l : List ScanEvent) (m : Nat → IpValidation) (ip : Nat),
      foundCount l ip = 0 → m ip = ipValidationInit →
      (l.foldl applyEvent m) ip = ipValidationInit := by
  intro l
  induction l with
  | nil => exact fun m ip _ hm => hm
  | cons e rest ih =>
    intro m ip h hm
    have h1 : foundCount rest ip = 0 := by
      unfold foundCount at h ⊢
      rw [List.countP_cons] at h
      omega
    rw [List.foldl_cons]
    apply ih _ _ h1
    by_cases hip : e.ip = ip
    · rw [applyEvent_own hip, hm]
      cases e with
      | probeResult j r =>
        cases r
        · rfl
        · exfalso
          unfold foundCount at h
          rw [List.countP_cons] at h
          have hj : j = ip := hip
          simp [hj, isFoundEventFor] at h
      | enterTesting j => simp [updOne, ipValidationInit]
      | finishTesting j ok => simp [updOne, ipValidationInit]
      | cancelSpawned j => simp [updOne, ipValidationInit]
      | cancelTesting j => simp [updOne, ipValidationInit]
    · rw [applyEvent_other hip]
      exact hm

theorem runEvents_zero_found (l : List ScanEvent) (ip : Nat)
    (h : foundCount l ip = 0) : runEvents l ip = ipValidationInit :=
  foldl_zero_found l _ ip h rfl

/-- Configurations reachable for one address that received at most one
responsive probe result. -/
def InvAll (st : IpValidation) : Prop :=
  st = ipValidationInit
  ∨ (st.state = .pending ∧ st.running = 0 ∧ st.spawned ≤ 1)
  ∨ (st.state = .testing ∧ st.spawned = 0 ∧ st.running ≤ 1)
  ∨ ((st.state = .success ∨ st.state = .failed)
      ∧ st.spawned = 0 ∧ st.running = 0)

theorem invAll_step_nonfound (st : IpValidation) (e : ScanEvent)
    (hne : ∀ j, e ≠ ScanEvent.probeResult j true)
    (h : InvAll st) :
    InvAll (updOne st e) ∧ forwardOK st.state (updOne st e).state = true := by
  cases e with
  | probeResult j r =>
    cases r
    · exact ⟨h, forwardOK_refl _⟩
    · exact absurd rfl (hne j)
  | enterTesting j =>
    by_cases hs : 0 < st.spawned
    · have hstEq : updOne st (.enterTesting j) =
          ⟨.testing, st.spawned - 1, st.running + 1⟩ := by
        simp [updOne, hs]
      rcases h with hinit | ⟨h1, h2, h3⟩ | ⟨h1, h2, h3⟩ | ⟨h1, h2, h3⟩
      · rw [hinit] at hs
        simp [ipValidationInit] at hs
      · rw [hstEq]
        refine ⟨Or.inr (Or.inr (Or.inl ⟨rfl,
          by show st.spawned - 1 = 0; omega,
          by show st.running + 1 ≤ 1; omega⟩)), ?_⟩
        rw [h1]
        rfl
      · omega
      · omega
    · have hstEq : updOne st (.enterTesting j) = st := by
        simp [updOne, hs]
      rw [hstEq]
      exact ⟨h, forwardOK_refl _⟩
  | finishTesting j ok =>
    by_cases hr : 0 < st.running
    · have hstEq : updOne st (.finishTesting j ok) =
          ⟨if ok then .success else .failed, st.spawned, st.running - 1⟩ := by
        simp [updOne, hr]
      rcases h with hinit | ⟨h1, h2, h3⟩ | ⟨h1, h2, h3⟩ | ⟨h1, h2, h3⟩
      · rw [hinit] at hr
        simp [ipValidationInit] at hr
      · omega
      · rw [hstEq]
        refine ⟨Or.inr (Or.inr (Or.inr ⟨?_, h2,
          by show st.running - 1 = 0; omega⟩)), ?_⟩
        · cases ok
          · exact Or.inr rfl
          · exact Or.inl rfl
        · rw [h1]
          cases ok <;> rfl
      · omega
    · have hstEq : updOne st (.finishTesting j ok) = st := by
        simp [updOne, hr]
      rw [hstEq]
      exact ⟨h, forwardOK_refl _⟩
  | cancelSpawned j =>
    by_cases hs : 0 < st.spawned
    · have hstEq : updOne st (.cancelSpawned j) =
          { st with spawned := st.spawned - 1 } := by
        simp [updOne, hs]
      rcases h with hinit | ⟨h1, h2, h3⟩ | ⟨h1, h2, h3⟩ | ⟨h1, h2, h3⟩
      · rw [hinit] at hs
        simp [ipValidationInit] at hs
      · rw [hstEq]
        exact ⟨Or.inr (Or.inl ⟨h1, h2,
          by show st.spawned - 1 ≤ 1; omega⟩), forwardOK_refl _⟩
      · omega
      · omega
    · have hstEq : updOne st (.cancelSpawned j) = st := by
        simp [updOne, hs]
      rw [hstEq]
      exact ⟨h, forwardOK_refl _⟩
  | cancelTesting j =>
    by_cases hr : 0 < st.running
    · have hstEq : updOne st (.cancelTesting j) =
          { st with running := st.running - 1 } := by
        simp [updOne, hr]
      rcases h with hinit | ⟨h1, h2, h3⟩ | ⟨h1, h2, h3⟩ | ⟨h1, h2, h3⟩
      · rw [hinit] at hr
        simp [ipValidationInit] at hr
      · omega
      · rw [hstEq]
        exact ⟨Or.inr (Or.inr (Or.inl ⟨h1, h2,
          by show st.running - 1 ≤ 1; omega⟩)), forwardOK_refl _⟩
      · omega
    · have hstEq : updOne st (.cancelTesting j) = st := by
        simp [updOne, hr]
      rw [hstEq]
      exact ⟨h, forwardOK_refl _⟩

theorem invAll_of_runEvents :
    ∀ (l : List ScanEvent) (ip : Nat),
      foundCount l ip ≤ 1 → InvAll (runEvents l ip) := by
  intro l
  induction l using List.reverseRecOn with
  | nil => exact fun ip _ => Or.inl rfl
  | append_singleton l e ih =>
    intro ip h
    have hle : foundCount l ip ≤ 1 := by
      unfold foundCount at h ⊢
      rw [List.countP_append] at h
      omega
    rw [runEvents_append]
    by_cases hip : e.ip = ip
    · by_cases hf : ∃ j, e = ScanEvent.probeResult j true
      · obtain ⟨j, rfl⟩ := hf
        have hj : j = ip := hip
        subst hj
        have h0 : foundCount l j = 0 := by
          unfold foundCount at h ⊢
          have hone :
              List.countP (isFoundEventFor j)
                [ScanEvent.probeResult j true] = 1 := by
            simp [List.countP_cons, isFoundEventFor]
          rw [List.countP_append, hone] at h
          omega
        rw [applyEvent_own hip, runEvents_zero_found l j h0]
        exact Or.inr (Or.inl ⟨rfl, rfl,
          by show ipValidationInit.spawned + 1 ≤ 1; decide⟩)
      · have hne : ∀ j, e ≠ ScanEvent.probeResult j true :=
          fun j hj => hf ⟨j, hj⟩
        rw [applyEvent_own hip]
        exact (invAll_step_nonfound (runEvents l ip) e hne (ih ip hle)).1
    · rw [applyEvent_other hip]
      exact ih ip hle

/-! ## Claim C5 -/

/-- C5 counterexample: when an address receives a second responsive probe
result after its validation already finished, `_process_result` overwrites
the terminal state with "Pending" again — a regression the claim (which
quantifies over all interleavings of probe results within one scan)
forbids.  This trace is reachable in the source: an address probed while a
shuffle happens during a pause is not yet in `found_servers`, so the
rebuilt remaining list contains it again and it is re-probed; if both
probes are responsive, the second result arrives after validation
finished. -/
theorem c5_counterexample :
    (runEvents [ScanEvent.probeResult 7 true, ScanEvent.enterTesting 7,
      ScanEvent.finishTesting 7 true] 7).state = VState.success
    ∧ (runEvents [ScanEvent.probeResult 7 true, ScanEvent.enterTesting 7,
      ScanEvent.finishTesting 7 true, ScanEvent.probeResult 7 true] 7).state
      = VState.pending
    ∧ forwardOK VState.success VState.pending = false := by
  decide

/-- C5 (amended): provided an address receives at most one responsive probe
result during the scan (which holds whenever it is never re-probed after
being found), its validation state only moves forward along
NotRequested → Pending → Testing → Success/Failed at every step of every
interleaving of probe results, task starts, task completions and
cancellations; Pending is the only entry transition and Success/Failed are
then terminal.  Without that proviso a second responsive probe result
resets a terminal state to Pending (see the counterexample). -/
theorem c5_monotonic_amended :
    ∀ (evts : List ScanEvent) (ip : Nat), foundCount evts ip ≤ 1 →
    ∀ (l₁ : List ScanEvent) (e : ScanEvent) (l₂ : List ScanEvent),
      evts = l₁ ++ e :: l₂ →
      forwardOK (runEvents l₁ ip).state
        (runEvents (l₁ ++ [e]) ip).state = true := by
  intro evts ip h l₁ e l₂ heq
  subst heq
  have hle1 : foundCount l₁ ip ≤ 1 := by
    unfold foundCount at h ⊢
    rw [List.countP_append, List.countP_cons] at h
    omega
  rw [runEvents_append]
  by_cases hip : e.ip = ip
  · by_cases hf : ∃ j, e = ScanEvent.probeResult j true
    · obtain ⟨j, rfl⟩ := hf
      have hj : j = ip := hip
      subst hj
      have h0 : foundCount l₁ j = 0 := by
        unfold foundCount at h ⊢
        have hif :
            (if isFoundEventFor j (ScanEvent.probeResult j true) = true
              then 1 else 0) = 1 := by
          simp [isFoundEventFor]
        rw [List.countP_append, List.countP_cons, hif] at h
        omega
      rw [applyEvent_own hip, runEvents_zero_found l₁ j h0]
      rfl
    · have hne : ∀ j, e ≠ ScanEvent.probeResult j true :=
        fun j hj => hf ⟨j, hj⟩
      rw [applyEvent_own hip]
      exact (invAll_step_nonfound (runEvents l₁ ip) e hne
        (invAll_of_runEvents l₁ ip hle1)).2
  · rw [applyEvent_other hip]
    exact forwardOK_refl _

/-- Witness for C5 (amended): a one-found trace for address 7, checked at
the Pending → Testing step. -/
theorem c5_monotonic_amended_witness :
    foundCount [ScanEvent.probeResult 7 true, ScanEvent.enterTesting 7,
      ScanEvent.finishTesting 7 true] 7 ≤ 1
    ∧ forwardOK (runEvents [ScanEvent.probeResult 7 true] 7).state
        (runEvents [ScanEvent.probeResult 7 true,
          ScanEvent.enterTesting 7] 7).state = true :=
  ⟨by decide,
    c5_monotonic_amended _ 7 (by decide) [ScanEvent.probeResult 7 true]
      (ScanEvent.enterTesting 7) [ScanEvent.finishTesting 7 true] rfl⟩
